import Mathlib

/-!
Shallow embedding of the two FUSE capture engines of this repository:
the relational engine (struct `DatabaseFS` in src/db-fuse.rs) and the
in-memory engine (struct `CaptureFS` in src/mem-fuse.rs).

Modelling conventions:
its byte payloads and names are lists of `Nat` (one entry per byte);
a Rust `&str` is represented by its underlying validated byte sequence,
so `str::from_utf8` validates and returns the same bytes; machine-integer
truncations that the code performs (such as `mode as u16`) are explicit
`% 65536`; the relational store is a pure value (rows of the `inodes`
table, rows of the `content` table in insertion order, and the directory
snapshot held between `opendir` and `readdir`); storage-layer transport
failures and the wall-clock timestamp fields are outside the embedding.
A Rust `unwrap` of an `Err` is the distinguished outcome `panicked`.
-/

set_option maxRecDepth 4000

/-- Result of one dispatched filesystem call: a successful reply, an errno
reply, a process abort (a Rust `unwrap` on an `Err` value), or no reply at
all (a code path that returns without calling the reply object). -/
inductive Outcome (α : Type) where
  | ok (val : α)
  | err (errno : Nat)
  | panicked
  | noreply
  deriving Repr, DecidableEq

/-- Linux errno values used by the two engines. -/
def EPERM : Nat := 1

def ENOENT : Nat := 2

def EBADF : Nat := 9

def EEXIST : Nat := 17

def EINVAL : Nat := 22

def ENAMETOOLONG : Nat := 36

def EBADFD : Nat := 77

/-- Byte sequences (payloads, names, captured lines). -/
abbrev Bytes := List Nat

def FUSE_ROOT_ID : Nat := 1

def MAX_NAME_LENGTH : Nat := 255

def BLOCK_SIZE : Nat := 512

/-- Continuation byte test for UTF-8 (second and later bytes of a
multi-byte sequence). -/
def contB (c : Nat) : Bool := decide (0x80 ≤ c ∧ c ≤ 0xBF)

/-- UTF-8 validity of a byte sequence, exactly the byte-level automaton
that `str::from_utf8` in Rust checks. -/
def utf8Valid : List Nat → Bool
  | [] => true
  | b :: rest =>
    if b ≤ 0x7F then utf8Valid rest
    else if 0xC2 ≤ b ∧ b ≤ 0xDF then
      match rest with
      | c1 :: r => contB c1 && utf8Valid r
      | [] => false
    else if b = 0xE0 then
      match rest with
      | c1 :: c2 :: r => decide (0xA0 ≤ c1 ∧ c1 ≤ 0xBF) && contB c2 && utf8Valid r
      | _ => false
    else if 0xE1 ≤ b ∧ b ≤ 0xEC then
      match rest with
      | c1 :: c2 :: r => contB c1 && contB c2 && utf8Valid r
      | _ => false
    else if b = 0xED then
      match rest with
      | c1 :: c2 :: r => decide (0x80 ≤ c1 ∧ c1 ≤ 0x9F) && contB c2 && utf8Valid r
      | _ => false
    else if 0xEE ≤ b ∧ b ≤ 0xEF then
      match rest with
      | c1 :: c2 :: r => contB c1 && contB c2 && utf8Valid r
      | _ => false
    else if b = 0xF0 then
      match rest with
      | c1 :: c2 :: c3 :: r =>
        decide (0x90 ≤ c1 ∧ c1 ≤ 0xBF) && contB c2 && contB c3 && utf8Valid r
      | _ => false
    else if 0xF1 ≤ b ∧ b ≤ 0xF3 then
      match rest with
      | c1 :: c2 :: c3 :: r => contB c1 && contB c2 && contB c3 && utf8Valid r
      | _ => false
    else if b = 0xF4 then
      match rest with
      | c1 :: c2 :: c3 :: r =>
        decide (0x80 ≤ c1 ∧ c1 ≤ 0x8F) && contB c2 && contB c3 && utf8Valid r
      | _ => false
    else false

/-- Rust `str::from_utf8`: validates the bytes and, on success, yields the
same bytes (an `&str` is exactly a validated byte slice). -/
def from_utf8 (bs : Bytes) : Except Unit Bytes :=
  if utf8Valid bs then Except.ok bs else Except.error ()

/-- Rust `slice::split(|&b| b == b'\n')`: the fragments between newline
bytes, keeping empty fragments, including the one after a trailing
newline. -/
def splitNl : Bytes → List Bytes
  | [] => [[]]
  | b :: rest =>
    if b = 10 then [] :: splitNl rest
    else
      match splitNl rest with
      | f :: fs => (b :: f) :: fs
      | [] => [[b]]

/-- Rust `collect` into `Result<Vec<_>, Utf8Error>` over the decoded
fragments: the first decode failure short-circuits. -/
def collectUtf8 : List Bytes → Except Unit (List Bytes)
  | [] => Except.ok []
  | f :: fs =>
    match from_utf8 f with
    | Except.error e => Except.error e
    | Except.ok l =>
      match collectUtf8 fs with
      | Except.error e => Except.error e
      | Except.ok ls => Except.ok (l :: ls)

inductive FileKind where
  | directory
  | regularFile
  deriving Repr, DecidableEq

/-- Modelled fields of the fuser `FileAttr` record; the wall-clock
timestamp fields (atime, mtime, ctime, crtime) are outside the embedding
and the fields rdev and flags are the constant zero in both engines. -/
structure FileAttr where
  ino : Nat
  size : Nat
  kind : FileKind
  perm : Nat
  nlink : Nat
  uid : Nat
  gid : Nat
  blksize : Nat
  deriving Repr, DecidableEq

/-- Function `new_attr` of src/db-fuse.rs: a regular-file attribute record
with size 0, link count 1 and `perm` the low 16 bits of the mode. -/
def new_attr (ino uid gid mode : Nat) : FileAttr :=
  { ino := ino, size := 0, kind := FileKind.regularFile, perm := mode % 65536,
    nlink := 1, uid := uid, gid := gid, blksize := BLOCK_SIZE }

/-- Constant `CAPTURE_DIR_ATTR`, identical in both source files: the fixed
attribute record of the root directory. -/
def CAPTURE_DIR_ATTR : FileAttr :=
  { ino := 1, size := 0, kind := FileKind.directory, perm := 0o755,
    nlink := 2, uid := 501, gid := 20, blksize := 512 }

/-- One row of the relational engine table
`inodes (ino serial, name name, mode int, uid int, gid int)`. -/
structure Row where
  ino : Nat
  name : Bytes
  mode : Nat
  uid : Nat
  gid : Nat
  deriving Repr, DecidableEq

/-- Postgres `query_one`: succeeds exactly when one row matches. -/
def query_one (rows : List Row) (p : Row → Bool) : Option Row :=
  match rows.filter p with
  | [r] => some r
  | _ => none

/-- State of the relational engine: the serial sequence of the `inodes`
table (`ALTER SEQUENCE inodes_ino_seq MINVALUE 10 START 10`), the catalog
rows, the `content` table rows in insertion order, and the field
`entries` holding the directory scan between `opendir` and `readdir`. -/
structure DatabaseFS where
  nextIno : Nat
  inodes : List Row
  content : List (Nat × Bytes)
  entries : Option (List (Bytes × Nat))
  deriving Repr, DecidableEq

/-- Function `DatabaseFS::new`: fresh tables, serial sequence starting
at 10, no directory scan in progress. -/
def DatabaseFS.new : DatabaseFS :=
  { nextIno := 10, inodes := [], content := [], entries := none }

/-- Method `DatabaseFS::lookup_name`: the prepared statement
`SELECT ino, uid, gid, mode FROM inodes WHERE name = $1` through
`query_one`, shaped by `new_attr`. -/
def DatabaseFS.lookup_name (fs : DatabaseFS) (name : Bytes) : Option FileAttr :=
  (query_one fs.inodes (fun r => decide (r.name = name))).map
    (fun r => new_attr r.ino r.uid r.gid r.mode)

/-- Method `DatabaseFS::get_inode`: the prepared statement
`SELECT ino, uid, gid, mode FROM inodes WHERE ino = $1` through
`query_one`; a query error becomes errno ENOENT. -/
def DatabaseFS.get_inode (fs : DatabaseFS) (ino : Nat) : Except Nat FileAttr :=
  match query_one fs.inodes (fun r => decide (r.ino = ino)) with
  | some r => Except.ok (new_attr r.ino r.uid r.gid r.mode)
  | none => Except.error ENOENT

/-- Method `DatabaseFS::allocate_inode(name, mode, uid, gid)`: inserts a
catalog row, takes the next serial value as the inode identifier and
returns `new_attr(ino, uid, gid, mode)`. -/
def DatabaseFS.allocate_inode (fs : DatabaseFS) (name : Bytes) (mode uid gid : Nat) :
    FileAttr × DatabaseFS :=
  let ino := fs.nextIno
  (new_attr ino uid gid mode,
   { fs with
       nextIno := ino + 1,
       inodes := fs.inodes ++ [{ ino := ino, name := name, mode := mode, uid := uid, gid := gid }] })

/-- Method `DatabaseFS::write_inode`: the payload is split on newline
bytes, the empty fragments are dropped (`filter_map` keeps `c.len() > 0`
only), each kept fragment is decoded by `from_utf8`, and the collected
result is unwrapped — a decode failure aborts the process. On success
each line is inserted into the `content` table in order. -/
def DatabaseFS.write_inode (fs : DatabaseFS) (ino : Nat) (data : Bytes) :
    Outcome Unit × DatabaseFS :=
  match collectUtf8 ((splitNl data).filter (fun c => decide (0 < c.length))) with
  | Except.error _ => (Outcome.panicked, fs)
  | Except.ok ls =>
    (Outcome.ok (), { fs with content := fs.content ++ ls.map (fun l => (ino, l)) })

/-- Dispatcher `lookup` of the relational engine: over-long names fail
with ENAMETOOLONG before anything else; a non-root parent fails with
EBADF; the name is unwrapped to a `&str` (aborting on invalid UTF-8) and
resolved through `lookup_name`, a miss giving ENOENT. -/
def DatabaseFS.lookup (fs : DatabaseFS) (parent : Nat) (name : Bytes) :
    Outcome FileAttr × DatabaseFS :=
  if MAX_NAME_LENGTH < name.length then (Outcome.err ENAMETOOLONG, fs)
  else if parent = FUSE_ROOT_ID then
    if utf8Valid name then
      match DatabaseFS.lookup_name fs name with
      | some attrs => (Outcome.ok attrs, fs)
      | none => (Outcome.err ENOENT, fs)
    else (Outcome.panicked, fs)
  else (Outcome.err EBADF, fs)

/-- Dispatcher `getattr` of the relational engine: the root returns the
constant directory attributes, other identifiers go through
`get_inode`. -/
def DatabaseFS.getattr (fs : DatabaseFS) (inode : Nat) : Outcome FileAttr × DatabaseFS :=
  if inode = FUSE_ROOT_ID then (Outcome.ok CAPTURE_DIR_ATTR, fs)
  else
    match DatabaseFS.get_inode fs inode with
    | Except.ok attrs => (Outcome.ok attrs, fs)
    | Except.error e => (Outcome.err e, fs)

/-- Dispatcher `setattr` of the relational engine. The source resolves
the inode first (ENOENT on a miss) and then walks the requested fields in
the order mode, gid, uid: each present field issues
`UPDATE inodes SET <field> = $1 WHERE ino = $2` binding the Rust u32
value to the int column of the table. The postgres crate implements
ToSql for u32 only at the OID type (`allocate_inode` casts to i32 for
exactly this reason), so the bind fails with WrongType on every such
call, the statement never executes, and the dispatcher replies EINVAL
and returns with nothing persisted. A call carrying none of those three
fields reaches the size check, where a size field is rejected with
EPERM; with no size either, the stored attributes are returned (the
atime and mtime arguments only touch the returned timestamp fields,
which are outside the embedding). -/
def DatabaseFS.setattr (fs : DatabaseFS) (inode : Nat) (mode uid gid size : Option Nat) :
    Outcome FileAttr × DatabaseFS :=
  match DatabaseFS.get_inode fs inode with
  | Except.error e => (Outcome.err e, fs)
  | Except.ok attrs =>
    if mode.isSome then (Outcome.err EINVAL, fs)
    else if gid.isSome then (Outcome.err EINVAL, fs)
    else if uid.isSome then (Outcome.err EINVAL, fs)
    else
      match size with
      | some _ => (Outcome.err EPERM, fs)
      | none => (Outcome.ok attrs, fs)

/-- Insertion step of the order on the directory scan. -/
def insertByIno (p : Bytes × Nat) : List (Bytes × Nat) → List (Bytes × Nat)
  | [] => [p]
  | q :: qs => if p.2 ≤ q.2 then p :: q :: qs else q :: insertByIno p qs

/-- SQL `SELECT name, ino FROM inodes ORDER BY ino`, as an insertion
sort of the catalog projection. -/
def sortByIno (l : List (Bytes × Nat)) : List (Bytes × Nat) :=
  l.foldr insertByIno []

/-- The directory scan the prepared statement `directory_scan` yields. -/
def dirSnapshot (fs : DatabaseFS) : List (Bytes × Nat) :=
  sortByIno (fs.inodes.map (fun r => (r.name, r.ino)))

/-- Dispatcher `opendir` of the relational engine: only the root may be
opened (ENOENT otherwise); the full catalog scan is captured into
`entries` and the constant handle 42 is issued. -/
def DatabaseFS.opendir (fs : DatabaseFS) (inode : Nat) : Outcome Nat × DatabaseFS :=
  if inode = FUSE_ROOT_ID then
    (Outcome.ok 42, { fs with entries := some (dirSnapshot fs) })
  else (Outcome.err ENOENT, fs)

/-- Dispatcher `releasedir` of the relational engine: unconditionally
clears the captured scan and succeeds. -/
def DatabaseFS.releasedir (fs : DatabaseFS) (ino fh : Nat) : Outcome Unit × DatabaseFS :=
  (Outcome.ok (), { fs with entries := none })

/-- Entries the relational readdir emits from a captured scan: for each
snapshot element, the tuple (inode, offset plus index, name). -/
def emitDb (offset : Nat) (es : List (Bytes × Nat)) : List (Nat × Nat × Bytes) :=
  es.enum.map (fun p => (p.2.2, offset + p.1, p.2.1))

/-- Dispatcher `readdir` of the relational engine: a handle other than
the constant 42 fails with EINVAL; otherwise the captured scan is taken
out of `entries` (leaving none) and emitted whole, and an already-drained
session emits nothing and still succeeds. -/
def DatabaseFS.readdir (fs : DatabaseFS) (inode fh offset : Nat) :
    Outcome (List (Nat × Nat × Bytes)) × DatabaseFS :=
  if fh = 42 then
    match fs.entries with
    | some es => (Outcome.ok (emitDb offset es), { fs with entries := none })
    | none => (Outcome.ok [], fs)
  else (Outcome.err EINVAL, fs)

/-- Dispatcher `create` of the relational engine: a non-root parent fails
with EBADFD; the name is unwrapped to a `&str` (aborting on invalid
UTF-8); an already-mapped name fails with EEXIST; otherwise the call
site passes `req.uid()`, `req.gid()`, `mode` into the `mode`, `uid`,
`gid` parameters of `allocate_inode`, exactly as the source does. There
is no name length check on this path. -/
def DatabaseFS.create (fs : DatabaseFS) (req_uid req_gid parent : Nat) (name : Bytes)
    (mode flags : Nat) : Outcome FileAttr × DatabaseFS :=
  if parent = FUSE_ROOT_ID then
    if utf8Valid name then
      match DatabaseFS.lookup_name fs name with
      | some _ => (Outcome.err EEXIST, fs)
      | none =>
        let p := DatabaseFS.allocate_inode fs name req_uid req_gid mode
        (Outcome.ok p.1, p.2)
    else (Outcome.panicked, fs)
  else (Outcome.err EBADFD, fs)

/-- Dispatcher `write` of the relational engine: delegates to
`write_inode` (no existence check on the inode) and reports the full
payload length on success; a store error would give EBADF; the decode
abort propagates. -/
def DatabaseFS.write (fs : DatabaseFS) (inode : Nat) (data : Bytes) :
    Outcome Nat × DatabaseFS :=
  match DatabaseFS.write_inode fs inode data with
  | (Outcome.ok _, fs2) => (Outcome.ok data.length, fs2)
  | (Outcome.panicked, fs2) => (Outcome.panicked, fs2)
  | (_, fs2) => (Outcome.err EBADF, fs2)

/-- In-memory engine file payload (struct `FileData` of src/mem-fuse.rs):
the ordered captured lines and the attribute record. -/
structure FileData where
  lines : List Bytes
  attr : FileAttr
  deriving Repr, DecidableEq

/-- State of the in-memory engine (struct `CaptureFS` of src/mem-fuse.rs):
the inode counter, the name map and the file map. The two Rust maps are
modelled as association lists; no claim depends on the unspecified
HashMap iteration order. -/
structure CaptureFS where
  last_inode : Nat
  names : List (Bytes × Nat)
  files : List (Nat × FileData)
  deriving Repr, DecidableEq

/-- Function `CaptureFS::new`: counter at the root identifier, empty
maps. -/
def CaptureFS.new : CaptureFS :=
  { last_inode := FUSE_ROOT_ID, names := [], files := [] }

/-- Lookup in the file map (`BTreeMap::get`). -/
def getFile : List (Nat × FileData) → Nat → Option FileData
  | [], _ => none
  | p :: ps, ino => if p.1 = ino then some p.2 else getFile ps ino

/-- In-place value update in the file map (`BTreeMap::get_mut` followed by
a mutation): replaces the value at the first matching key. -/
def setFile : List (Nat × FileData) → Nat → FileData → List (Nat × FileData)
  | [], _, _ => []
  | p :: ps, ino, fd => if p.1 = ino then (ino, fd) :: ps else p :: setFile ps ino fd

/-- Map insertion (`BTreeMap::insert`): replaces the value when the key is
present, extends the map otherwise. -/
def insertFile (files : List (Nat × FileData)) (ino : Nat) (fd : FileData) :
    List (Nat × FileData) :=
  if (getFile files ino).isSome then setFile files ino fd else files ++ [(ino, fd)]

/-- Lookup in the name map (`HashMap::get`). -/
def getName : List (Bytes × Nat) → Bytes → Option Nat
  | [], _ => none
  | p :: ps, n => if p.1 = n then some p.2 else getName ps n

/-- Dispatcher `lookup` of the in-memory engine: over-long names fail with
ENAMETOOLONG first; under the root parent the name map and then the file
map are consulted (a mapped name missing from the file map gives EBADFD);
every other path falls through to ENOENT. -/
def CaptureFS.lookup (cfs : CaptureFS) (parent : Nat) (name : Bytes) :
    Outcome FileAttr × CaptureFS :=
  if MAX_NAME_LENGTH < name.length then (Outcome.err ENAMETOOLONG, cfs)
  else if parent = FUSE_ROOT_ID then
    match getName cfs.names name with
    | some ino =>
      match getFile cfs.files ino with
      | some fd => (Outcome.ok fd.attr, cfs)
      | none => (Outcome.err EBADFD, cfs)
    | none => (Outcome.err ENOENT, cfs)
  else (Outcome.err ENOENT, cfs)

/-- Dispatcher `getattr` of the in-memory engine: the root returns the
constant directory attributes, a mapped inode its stored attributes, and
an unknown inode produces no reply at all (the source has no else
branch). -/
def CaptureFS.getattr (cfs : CaptureFS) (inode : Nat) : Outcome FileAttr × CaptureFS :=
  if inode = FUSE_ROOT_ID then (Outcome.ok CAPTURE_DIR_ATTR, cfs)
  else
    match getFile cfs.files inode with
    | some fd => (Outcome.ok fd.attr, cfs)
    | none => (Outcome.noreply, cfs)

/-- Entries the in-memory readdir emits: the live name map, skipping
`offset` entries, each as (inode, offset plus index plus one, name). -/
def memEmit (cfs : CaptureFS) (offset : Nat) : List (Nat × Nat × Bytes) :=
  ((cfs.names.drop offset).enum).map (fun p => (p.2.2, offset + p.1 + 1, p.2.1))

/-- Dispatcher `readdir` of the in-memory engine: only the root may be
read (ENOENT otherwise); the handle argument is never examined and the
entries come from the live name map, not from a snapshot. -/
def CaptureFS.readdir (cfs : CaptureFS) (inode fh offset : Nat) :
    Outcome (List (Nat × Nat × Bytes)) × CaptureFS :=
  if inode = FUSE_ROOT_ID then (Outcome.ok (memEmit cfs offset), cfs)
  else (Outcome.err ENOENT, cfs)

/-- Dispatcher `opendir` of the in-memory engine: src/mem-fuse.rs does not
override `opendir`, so the delivery-layer default applies — it issues
handle 0 and touches no state. -/
def CaptureFS.opendir (cfs : CaptureFS) (inode flags : Nat) : Outcome Nat × CaptureFS :=
  (Outcome.ok 0, cfs)

/-- Dispatcher `create` of the in-memory engine: a non-root parent fails
with EBADFD; an already-mapped name with EEXIST; an access-mode flag
combination other than read-only, write-only or read-write with EINVAL
(the low two bits of `flags` are the access mode); otherwise the counter
is bumped, the name and file maps are extended and the new attributes
carry the requested mode with the request uid and gid. There is no name
length check on this path. -/
def CaptureFS.create (cfs : CaptureFS) (req_uid req_gid parent : Nat) (name : Bytes)
    (mode flags : Nat) : Outcome FileAttr × CaptureFS :=
  if parent = FUSE_ROOT_ID then
    if (getName cfs.names name).isSome then (Outcome.err EEXIST, cfs)
    else if 2 < flags % 4 then (Outcome.err EINVAL, cfs)
    else
      let ino := cfs.last_inode + 1
      let attr : FileAttr :=
        { ino := ino, size := 0, kind := FileKind.regularFile, perm := mode % 65536,
          nlink := 0, uid := req_uid, gid := req_gid, blksize := BLOCK_SIZE }
      (Outcome.ok attr,
       { last_inode := ino,
         names := cfs.names ++ [(name, ino)],
         files := insertFile cfs.files ino { lines := [], attr := attr } })
  else (Outcome.err EBADFD, cfs)

/-- Dispatcher `write` of the in-memory engine: an unmapped inode fails
with EBADF; the payload is split on newline bytes with no fragment
dropped, every fragment is decoded by `from_utf8` and the collected
result is unwrapped — a decode failure aborts the process; on success
every fragment, empty ones included, is appended as a line. -/
def CaptureFS.write (cfs : CaptureFS) (inode : Nat) (data : Bytes) :
    Outcome Nat × CaptureFS :=
  match getFile cfs.files inode with
  | some fd =>
    match collectUtf8 (splitNl data) with
    | Except.error _ => (Outcome.panicked, cfs)
    | Except.ok ls =>
      (Outcome.ok data.length,
       { cfs with files := setFile cfs.files inode { fd with lines := fd.lines ++ ls } })
  | none => (Outcome.err EBADF, cfs)

/-- Content records of one inode in the relational engine, in append
order: the `content` rows of that inode. -/
def dbRecords (fs : DatabaseFS) (ino : Nat) : List Bytes :=
  (fs.content.filter (fun p => decide (p.1 = ino))).map (fun p => p.2)

/-- Content records of one inode in the in-memory engine: the stored
lines. -/
def memRecords (cfs : CaptureFS) (ino : Nat) : List Bytes :=
  match getFile cfs.files ino with
  | some fd => fd.lines
  | none => []

example : splitNl [97, 10, 98, 10] = [[97], [98], []] := by decide

example :
    (DatabaseFS.write DatabaseFS.new 10 [97, 10, 98, 10]).2.content
      = [(10, [97]), (10, [98])] := by decide

example :
    memRecords (CaptureFS.write
      ((CaptureFS.create CaptureFS.new 1000 1000 1 [102] 420 1).2) 2 [97, 10, 98, 10]).2 2
      = [[97], [98], []] := by decide

lemma from_utf8_ok (c : Bytes) (h : utf8Valid c = true) : from_utf8 c = Except.ok c := by
  simp [from_utf8, h]

lemma collectUtf8_ok : ∀ l : List Bytes, (∀ c ∈ l, utf8Valid c = true) →
    collectUtf8 l = Except.ok l
  | [], _ => rfl
  | f :: fs, h => by
    have hf := h f (List.mem_cons_self f fs)
    have hrest := collectUtf8_ok fs (fun c hc => h c (List.mem_cons_of_mem f hc))
    simp [collectUtf8, from_utf8_ok f hf, hrest]

/-- A relational write whose kept fragments all decode appends exactly the
nonempty fragments, in order, as content rows of that inode. -/
lemma dbWrite_ok (fs : DatabaseFS) (ino : Nat) (d : Bytes)
    (h : ∀ c ∈ splitNl d, utf8Valid c = true) :
    DatabaseFS.write fs ino d
      = (Outcome.ok d.length,
         { fs with content := fs.content
             ++ ((splitNl d).filter (fun c => decide (0 < c.length))).map (fun l => (ino, l)) }) := by
  have hall : ∀ c ∈ (splitNl d).filter (fun c => decide (0 < c.length)), utf8Valid c = true :=
    fun c hc => h c (List.mem_of_mem_filter hc)
  simp [DatabaseFS.write, DatabaseFS.write_inode, collectUtf8_ok _ hall]

/-- An in-memory write to a mapped inode whose fragments all decode
appends every fragment, empty ones included, in order. -/
lemma memWrite_ok (cfs : CaptureFS) (ino : Nat) (d : Bytes) (fd : FileData)
    (hf : getFile cfs.files ino = some fd) (h : ∀ c ∈ splitNl d, utf8Valid c = true) :
    CaptureFS.write cfs ino d
      = (Outcome.ok d.length,
         { cfs with files := setFile cfs.files ino { fd with lines := fd.lines ++ splitNl d } }) := by
  simp [CaptureFS.write, hf, collectUtf8_ok _ h]

lemma getFile_setFile : ∀ (files : List (Nat × FileData)) (ino : Nat) (fd fd' : FileData),
    getFile files ino = some fd → getFile (setFile files ino fd') ino = some fd'
  | [], ino, fd, fd' => by simp [getFile]
  | p :: ps, ino, fd, fd' => by
    by_cases hp : p.1 = ino
    · simp [getFile, setFile, hp]
    · simp [getFile, setFile, hp]
      exact getFile_setFile ps ino fd fd'

/-- C1 is stated over `memF`, the in-memory engine holding the single file
created by `create(root, "f", mode 0644, uid 1000, gid 1000)`. -/
def memF : CaptureFS := (CaptureFS.create CaptureFS.new 1000 1000 1 [102] 420 1).2

/-- The payload of the file of `memF` before any write. -/
def fdF : FileData :=
  { lines := [],
    attr := { ino := 2, size := 0, kind := FileKind.regularFile, perm := 420,
              nlink := 0, uid := 1000, gid := 1000, blksize := 512 } }

/-- C1: the claim asserts that both engines keep non-trailing empty
fragments and drop only trailing ones, so that writing the bytes of
"a\nb\n" and then "c\n" yields exactly the records a, b, c. The
in-memory engine refutes it: it keeps every fragment, so the same two
writes to the file of `memF` leave the records a, b, empty, c, empty. -/
theorem c1_counterexample :
    memRecords (CaptureFS.write (CaptureFS.write memF 2 [97, 10, 98, 10]).2 2 [99, 10]).2 2
      = [[97], [98], [], [99], []]
    ∧ memRecords (CaptureFS.write (CaptureFS.write memF 2 [97, 10, 98, 10]).2 2 [99, 10]).2 2
      ≠ [[97], [98], [99]] := by decide

/-- C1 (amended): each write is split on newline bytes and the lines land
in call order in both engines, but the engines keep different fragments:
over any two consecutive writes, the relational engine appends exactly
the nonempty fragments of each payload (dropping interior empties too),
while the in-memory engine appends every fragment of each payload
(trailing empties included). -/
theorem c1_line_splitting (fs : DatabaseFS) (cfs : CaptureFS) (ino : Nat)
    (d1 d2 : Bytes) (fd : FileData)
    (h1 : ∀ c ∈ splitNl d1, utf8Valid c = true)
    (h2 : ∀ c ∈ splitNl d2, utf8Valid c = true)
    (hf : getFile cfs.files ino = some fd) :
    ((DatabaseFS.write (DatabaseFS.write fs ino d1).2 ino d2).2).content
      = fs.content
        ++ ((splitNl d1).filter (fun c => decide (0 < c.length))).map (fun l => (ino, l))
        ++ ((splitNl d2).filter (fun c => decide (0 < c.length))).map (fun l => (ino, l))
    ∧ memRecords ((CaptureFS.write (CaptureFS.write cfs ino d1).2 ino d2).2) ino
      = fd.lines ++ splitNl d1 ++ splitNl d2 := by
  constructor
  · rw [dbWrite_ok fs ino d1 h1]
    rw [dbWrite_ok _ ino d2 h2]
  · have w1 := memWrite_ok cfs ino d1 fd hf h1
    have hf1 : getFile ((CaptureFS.write cfs ino d1).2).files ino
        = some { fd with lines := fd.lines ++ splitNl d1 } := by
      rw [w1]
      exact getFile_setFile cfs.files ino fd _ hf
    rw [memWrite_ok _ ino d2 _ hf1 h2]
    unfold memRecords
    rw [getFile_setFile _ ino _ _ hf1]

theorem c1_line_splitting_witness :
    ((DatabaseFS.write (DatabaseFS.write DatabaseFS.new 2 [97, 10, 98, 10]).2 2 [99, 10]).2).content
      = DatabaseFS.new.content
        ++ ((splitNl [97, 10, 98, 10]).filter (fun c => decide (0 < c.length))).map
            (fun l => ((2 : Nat), l))
        ++ ((splitNl [99, 10]).filter (fun c => decide (0 < c.length))).map
            (fun l => ((2 : Nat), l))
    ∧ memRecords ((CaptureFS.write (CaptureFS.write memF 2 [97, 10, 98, 10]).2 2 [99, 10]).2) 2
      = fdF.lines ++ splitNl [97, 10, 98, 10] ++ splitNl [99, 10] :=
  c1_line_splitting DatabaseFS.new memF 2 [97, 10, 98, 10] [99, 10] fdF
    (by decide) (by decide) (by decide)

/-- C2: a write payload that is not valid UTF-8 must fail with a typed
error, but both engines unwrap the decode result and abort the process:
at the one-byte payload 0xFF the relational write (to any inode) and the
in-memory write (to the mapped inode of `memF`) both end in the abort
outcome instead of an errno reply. -/
theorem c2_invalid_utf8_aborts :
    (DatabaseFS.write DatabaseFS.new 10 [255]).1 = Outcome.panicked
    ∧ (CaptureFS.write memF 2 [255]).1 = Outcome.panicked := by decide

/-- C3: the claim expects `create(root, "log.txt", mode 0644, uid 1000,
gid 1000)` to return and persist permission bits 0644 (420), uid 1000 and
gid 1000. The relational engine passes the request uid, the request gid
and the mode into the `mode`, `uid` and `gid` parameters of
`allocate_inode` in that transposed order, so it returns permission bits
1000 and group 420 and persists the row (mode 1000, uid 1000, gid 420);
the in-memory engine returns the expected attributes. -/
theorem c3_create_transposed :
    (DatabaseFS.create DatabaseFS.new 1000 1000 1 [108, 111, 103, 46, 116, 120, 116] 420 1).1
      = Outcome.ok { ino := 10, size := 0, kind := FileKind.regularFile, perm := 1000,
                     nlink := 1, uid := 1000, gid := 420, blksize := 512 }
    ∧ ((DatabaseFS.create DatabaseFS.new 1000 1000 1 [108, 111, 103, 46, 116, 120, 116] 420 1).2).inodes
      = [{ ino := 10, name := [108, 111, 103, 46, 116, 120, 116],
           mode := 1000, uid := 1000, gid := 420 }]
    ∧ (CaptureFS.create CaptureFS.new 1000 1000 1 [108, 111, 103, 46, 116, 120, 116] 420 1).1
      = Outcome.ok { ino := 2, size := 0, kind := FileKind.regularFile, perm := 420,
                     nlink := 0, uid := 1000, gid := 1000, blksize := 512 }
    ∧ (1000 : Nat) ≠ 420 := by decide

/-- The relational engine holding the single file created by
`create(root, "f", mode 0644, uid 1000, gid 1000)` — the same call that
builds `memF`. -/
def dbF : DatabaseFS := (DatabaseFS.create DatabaseFS.new 1000 1000 1 [102] 420 1).2

/-- C4: the two engines are claimed to produce the same success results
modulo identifiers and timestamps over every call sequence. Running the
same sequence — create the file "f" at the root, then write the bytes of
"a\nb\n" to it — leaves the relational engine with the content records
a, b and the in-memory engine with a, b, empty: different success
results for the same calls. -/
theorem c4_counterexample :
    dbRecords (DatabaseFS.write dbF 10 [97, 10, 98, 10]).2 10 = [[97], [98]]
    ∧ memRecords (CaptureFS.write memF 2 [97, 10, 98, 10]).2 2 = [[97], [98], []]
    ∧ ([[97], [98]] : List Bytes) ≠ [[97], [98], []] := by decide

/-- C4 (amended): the engines agree only on fragments of the contract.
Proved here: an over-long name fails lookup with ENAMETOOLONG in both, a
create under a non-root parent fails with EBADFD in both, and a create of
an already-mapped name fails with EEXIST in both. They do not satisfy
the contract identically: they diverge on write line-splitting, on the
attribute fields create persists, on the lookup bad-parent code, on
getattr for absent inodes and on readdir session handling. -/
theorem c4_partial_agreement :
    (∀ (fs : DatabaseFS) (cfs : CaptureFS) (parent : Nat) (name : Bytes),
       MAX_NAME_LENGTH < name.length →
       (DatabaseFS.lookup fs parent name).1 = Outcome.err ENAMETOOLONG
       ∧ (CaptureFS.lookup cfs parent name).1 = Outcome.err ENAMETOOLONG)
    ∧ (∀ (fs : DatabaseFS) (cfs : CaptureFS) (u g parent : Nat) (name : Bytes) (mode flags : Nat),
       parent ≠ FUSE_ROOT_ID →
       (DatabaseFS.create fs u g parent name mode flags).1 = Outcome.err EBADFD
       ∧ (CaptureFS.create cfs u g parent name mode flags).1 = Outcome.err EBADFD)
    ∧ (∀ (fs : DatabaseFS) (cfs : CaptureFS) (u g : Nat) (name : Bytes) (mode flags : Nat)
         (r : Row),
       fs.inodes.filter (fun x => decide (x.name = name)) = [r] →
       utf8Valid name = true →
       (getName cfs.names name).isSome = true →
       (DatabaseFS.create fs u g FUSE_ROOT_ID name mode flags).1 = Outcome.err EEXIST
       ∧ (CaptureFS.create cfs u g FUSE_ROOT_ID name mode flags).1 = Outcome.err EEXIST) := by
  refine ⟨?_, ?_, ?_⟩
  · intro fs cfs parent name hlen
    constructor
    · simp [DatabaseFS.lookup, hlen]
    · simp [CaptureFS.lookup, hlen]
  · intro fs cfs u g parent name mode flags hp
    constructor
    · simp [DatabaseFS.create, hp]
    · simp [CaptureFS.create, hp]
  · intro fs cfs u g name mode flags r hfil hval hsome
    constructor
    · simp [DatabaseFS.create, DatabaseFS.lookup_name, query_one, hval, hfil]
    · simp [CaptureFS.create, hsome]

theorem c4_partial_agreement_witness :
    (DatabaseFS.lookup DatabaseFS.new 1 (List.replicate 256 98)).1 = Outcome.err ENAMETOOLONG
    ∧ (CaptureFS.create CaptureFS.new 1000 1000 7 [103] 420 1).1 = Outcome.err EBADFD
    ∧ (DatabaseFS.create dbF 1000 1000 FUSE_ROOT_ID [102] 420 1).1 = Outcome.err EEXIST
    ∧ (CaptureFS.create memF 1000 1000 FUSE_ROOT_ID [102] 420 1).1 = Outcome.err EEXIST :=
  ⟨(c4_partial_agreement.1 DatabaseFS.new CaptureFS.new 1 (List.replicate 256 98) (by decide)).1,
   (c4_partial_agreement.2.1 DatabaseFS.new CaptureFS.new 1000 1000 7 [103] 420 1 (by decide)).2,
   (c4_partial_agreement.2.2 dbF memF 1000 1000 [102] 420 1
      { ino := 10, name := [102], mode := 1000, uid := 1000, gid := 420 }
      (by decide) (by decide) (by decide)).1,
   (c4_partial_agreement.2.2 dbF memF 1000 1000 [102] 420 1
      { ino := 10, name := [102], mode := 1000, uid := 1000, gid := 420 }
      (by decide) (by decide) (by decide)).2⟩

lemma insertByIno_length (p : Bytes × Nat) :
    ∀ l : List (Bytes × Nat), (insertByIno p l).length = l.length + 1
  | [] => rfl
  | q :: qs => by
    by_cases h : p.2 ≤ q.2
    · simp [insertByIno, h]
    · simp [insertByIno, h, insertByIno_length p qs]

lemma sortByIno_length : ∀ l : List (Bytes × Nat), (sortByIno l).length = l.length
  | [] => rfl
  | p :: ps => by
    have : sortByIno (p :: ps) = insertByIno p (sortByIno ps) := rfl
    rw [this, insertByIno_length, sortByIno_length ps, List.length_cons]

lemma dbCreate_entries (fs : DatabaseFS) (u g p : Nat) (n : Bytes) (m f : Nat) :
    ((DatabaseFS.create fs u g p n m f).2).entries = fs.entries := by
  unfold DatabaseFS.create
  by_cases hp : p = FUSE_ROOT_ID
  · by_cases hv : utf8Valid n = true
    · cases hl : DatabaseFS.lookup_name fs n with
      | some a => simp [hp, hv, hl]
      | none => simp [hp, hv, hl, DatabaseFS.allocate_inode]
    · simp [hp, hv]
  · simp [hp]

/-- C5: the in-memory engine refutes snapshot isolation. With the file
"a" created, a directory session is opened (the catalog holds one
entry and the engine captures nothing), the file "b" is created inside
the session, and readdir then emits two entries — the result set size
differs from the catalog size at the moment of opendir, and the create
issued after opendir changed the result set of the session. -/
theorem c5_counterexample :
    ((CaptureFS.create CaptureFS.new 1000 1000 1 [97] 420 1).2).names.length = 1
    ∧ (CaptureFS.opendir (CaptureFS.create CaptureFS.new 1000 1000 1 [97] 420 1).2 1 0).2
      = (CaptureFS.create CaptureFS.new 1000 1000 1 [97] 420 1).2
    ∧ (CaptureFS.readdir
        (CaptureFS.create
          (CaptureFS.opendir (CaptureFS.create CaptureFS.new 1000 1000 1 [97] 420 1).2 1 0).2
          1000 1000 1 [98] 420 1).2 1 0 0).1
      = Outcome.ok [(2, 1, [97]), (3, 2, [98])]
    ∧ ([(2, 1, [97]), (3, 2, [98])] : List (Nat × Nat × Bytes)).length
      ≠ ((CaptureFS.create CaptureFS.new 1000 1000 1 [97] 420 1).2).names.length := by
  decide

/-- C5 (amended): in the relational engine readdir serves the snapshot
captured at opendir — opendir on the root captures the full catalog scan
(of the same size as the catalog), a create leaves a captured snapshot
untouched, and readdir with the session handle emits exactly the
captured snapshot, one entry per snapshot element. The in-memory engine
captures no snapshot and its readdir walks the live catalog, so a create
between opendir and readdir is visible there. -/
theorem c5_snapshot :
    (∀ fs : DatabaseFS,
       DatabaseFS.opendir fs FUSE_ROOT_ID
         = (Outcome.ok 42, { fs with entries := some (dirSnapshot fs) })
       ∧ (dirSnapshot fs).length = fs.inodes.length)
    ∧ (∀ (fs : DatabaseFS) (u g p : Nat) (n : Bytes) (m f : Nat),
       ((DatabaseFS.create fs u g p n m f).2).entries = fs.entries)
    ∧ (∀ (fs : DatabaseFS) (ino offset : Nat) (es : List (Bytes × Nat)),
       fs.entries = some es →
       (DatabaseFS.readdir fs ino 42 offset).1 = Outcome.ok (emitDb offset es)
       ∧ (emitDb offset es).length = es.length) := by
  refine ⟨?_, dbCreate_entries, ?_⟩
  · intro fs
    constructor
    · simp [DatabaseFS.opendir]
    · simp [dirSnapshot, sortByIno_length]
  · intro fs ino offset es hes
    constructor
    · simp [DatabaseFS.readdir, hes]
    · simp [emitDb]

theorem c5_snapshot_witness :
    (DatabaseFS.readdir (DatabaseFS.opendir dbF 1).2 1 42 0).1
      = Outcome.ok (emitDb 0 (dirSnapshot dbF))
    ∧ (emitDb 0 (dirSnapshot dbF)).length = (dirSnapshot dbF).length :=
  c5_snapshot.2.2 (DatabaseFS.opendir dbF 1).2 1 0 (dirSnapshot dbF) (by decide)

/-- C6: a readdir on a handle whose session was already released is
claimed to fail with the invalid-handle error, but the relational engine
only checks the handle value: after opendir and releasedir on the root,
a readdir with the issued handle 42 succeeds and emits nothing instead
of failing with EINVAL. -/
theorem c6_counterexample :
    (DatabaseFS.readdir
       (DatabaseFS.releasedir (DatabaseFS.opendir dbF 1).2 1 42).2 1 42 0).1
      = Outcome.ok []
    ∧ (DatabaseFS.readdir
       (DatabaseFS.releasedir (DatabaseFS.opendir dbF 1).2 1 42).2 1 42 0).1
      ≠ Outcome.err EINVAL := by decide

/-- C6 (amended): in the relational engine a readdir with any handle
other than the constant 42 fails with EINVAL (the invalid-handle code),
but a readdir with handle 42 whose session was released or never opened
succeeds and emits no entries; the in-memory engine never examines the
handle — its readdir on the root succeeds for every handle value. -/
theorem c6_handle_validation :
    (∀ (fs : DatabaseFS) (ino fh offset : Nat), fh ≠ 42 →
       (DatabaseFS.readdir fs ino fh offset).1 = Outcome.err EINVAL)
    ∧ (∀ (fs : DatabaseFS) (ino offset : Nat), fs.entries = none →
       DatabaseFS.readdir fs ino 42 offset = (Outcome.ok [], fs))
    ∧ (∀ (cfs : CaptureFS) (fh offset : Nat),
       (CaptureFS.readdir cfs FUSE_ROOT_ID fh offset).1 = Outcome.ok (memEmit cfs offset)) := by
  refine ⟨?_, ?_, ?_⟩
  · intro fs ino fh offset h
    simp [DatabaseFS.readdir, h]
  · intro fs ino offset h
    simp [DatabaseFS.readdir, h]
  · intro cfs fh offset
    simp [CaptureFS.readdir]

theorem c6_handle_validation_witness :
    (DatabaseFS.readdir DatabaseFS.new 1 7 0).1 = Outcome.err EINVAL
    ∧ DatabaseFS.readdir dbF 1 42 0 = (Outcome.ok [], dbF) :=
  ⟨c6_handle_validation.1 DatabaseFS.new 1 7 0 (by decide),
   c6_handle_validation.2.1 dbF 1 0 (by decide)⟩

/-- C7: a setattr that carries a size field is claimed to always fail
with the operation-not-supported code EPERM, but when a mode (or gid or
uid) field accompanies the size, the relational engine fails earlier:
the u32-typed UPDATE of the mode cannot bind to the int column, so the
call on the catalogued inode 10 returns EINVAL, not EPERM. -/
theorem c7_counterexample :
    (DatabaseFS.setattr dbF 10 (some 493) none none (some 0)).1 = Outcome.err EINVAL
    ∧ (DatabaseFS.setattr dbF 10 (some 493) none none (some 0)).1 ≠ Outcome.err EPERM := by
  decide

/-- C7 (amended): a setattr that carries a size field on a catalogued
inode always fails and leaves the store — content records included —
completely untouched; the error is EPERM (operation not supported) when
no mode, gid or uid field accompanies the size, and EINVAL otherwise,
because the always-failing u32 field update replies first. -/
theorem c7_setattr_size_rejected (fs : DatabaseFS) (ino : Nat) (a : FileAttr)
    (mode uid gid : Option Nat) (s : Nat)
    (h : DatabaseFS.get_inode fs ino = Except.ok a) :
    (DatabaseFS.setattr fs ino mode uid gid (some s)).1
      = (if mode = none ∧ gid = none ∧ uid = none
         then Outcome.err EPERM else Outcome.err EINVAL)
    ∧ (DatabaseFS.setattr fs ino mode uid gid (some s)).2 = fs := by
  unfold DatabaseFS.setattr
  rw [h]
  rcases mode with _ | m <;> rcases gid with _ | g <;> rcases uid with _ | u <;> simp

theorem c7_setattr_size_rejected_witness :
    (DatabaseFS.setattr dbF 10 none none none (some 0)).1
      = (if (none : Option Nat) = none ∧ (none : Option Nat) = none
           ∧ (none : Option Nat) = none
         then Outcome.err EPERM else Outcome.err EINVAL)
    ∧ (DatabaseFS.setattr dbF 10 none none none (some 0)).2 = dbF :=
  c7_setattr_size_rejected dbF 10 (new_attr 10 1000 420 1000) none none none 0 (by rfl)

/-- The persisted mode of one catalogued inode: the row the inode query
finds, projected to its mode column. -/
def rowMode (fs : DatabaseFS) (ino : Nat) : Option Nat :=
  (query_one fs.inodes (fun r => decide (r.ino = ino))).map (fun r => r.mode)

/-- C10: a setattr carrying both a mode and a size is claimed to persist
the mode change and return the size-rejection error EPERM. On the
catalogued inode 10 of `dbF` (stored mode 1000) it does neither: the
u32-typed mode UPDATE fails at parameter bind, so the call returns
EINVAL and the stored mode is still 1000, not the requested 448. -/
theorem c10_counterexample :
    (DatabaseFS.setattr dbF 10 (some 448) none none (some 4096)).1 = Outcome.err EINVAL
    ∧ (DatabaseFS.setattr dbF 10 (some 448) none none (some 4096)).1 ≠ Outcome.err EPERM
    ∧ rowMode ((DatabaseFS.setattr dbF 10 (some 448) none none (some 4096)).2) 10 = some 1000
    ∧ rowMode ((DatabaseFS.setattr dbF 10 (some 448) none none (some 4096)).2) 10
      ≠ some 448 := by decide

/-- C10 (amended): the relational setattr walks the requested fields in
the fixed source order mode, gid, uid, size, but each of the three field
updates fails deterministically at parameter bind (a Rust u32 against
the int column), so a setattr carrying a mode — whatever gid, uid and
size fields ride along — fails with EINVAL, persists nothing, and in
particular leaves the stored mode of the inode unchanged; the size
rejection is reached only by calls carrying none of the three fields. -/
theorem c10_setattr_no_partial_update (fs : DatabaseFS) (ino : Nat) (a : FileAttr)
    (m : Nat) (uid gid size : Option Nat)
    (h : DatabaseFS.get_inode fs ino = Except.ok a) :
    (DatabaseFS.setattr fs ino (some m) uid gid size).1 = Outcome.err EINVAL
    ∧ (DatabaseFS.setattr fs ino (some m) uid gid size).2 = fs
    ∧ rowMode ((DatabaseFS.setattr fs ino (some m) uid gid size).2) ino = rowMode fs ino := by
  unfold DatabaseFS.setattr
  rw [h]
  simp

theorem c10_setattr_no_partial_update_witness :
    (DatabaseFS.setattr dbF 10 (some 448) none none (some 4096)).1 = Outcome.err EINVAL
    ∧ (DatabaseFS.setattr dbF 10 (some 448) none none (some 4096)).2 = dbF
    ∧ rowMode ((DatabaseFS.setattr dbF 10 (some 448) none none (some 4096)).2) 10
      = rowMode dbF 10 :=
  c10_setattr_no_partial_update dbF 10 (new_attr 10 1000 420 1000) 448 none none
    (some 4096) (by rfl)

/-- C9: a create with a 256-byte name is claimed to fail with
ENAMETOOLONG before any store access, but neither engine checks the name
length on the create path: both calls proceed to the store and persist
the over-long name. -/
theorem c9_counterexample :
    (DatabaseFS.create DatabaseFS.new 1000 1000 1 (List.replicate 256 97) 420 1).1
      ≠ Outcome.err ENAMETOOLONG
    ∧ ((DatabaseFS.create DatabaseFS.new 1000 1000 1 (List.replicate 256 97) 420 1).2).inodes.length
      = 1
    ∧ (CaptureFS.create CaptureFS.new 1000 1000 1 (List.replicate 256 97) 420 1).1
      ≠ Outcome.err ENAMETOOLONG
    ∧ ((CaptureFS.create CaptureFS.new 1000 1000 1 (List.replicate 256 97) 420 1).2).names.length
      = 1 := by decide

/-- C9 (amended): only lookup enforces the 255-unit name bound — in both
engines an over-long name fails lookup with ENAMETOOLONG with the state
untouched, before any store access — while create never returns
ENAMETOOLONG in either engine, whatever the name length. -/
theorem c9_name_length :
    (∀ (fs : DatabaseFS) (parent : Nat) (name : Bytes), MAX_NAME_LENGTH < name.length →
       DatabaseFS.lookup fs parent name = (Outcome.err ENAMETOOLONG, fs))
    ∧ (∀ (cfs : CaptureFS) (parent : Nat) (name : Bytes), MAX_NAME_LENGTH < name.length →
       CaptureFS.lookup cfs parent name = (Outcome.err ENAMETOOLONG, cfs))
    ∧ (∀ (fs : DatabaseFS) (u g parent : Nat) (name : Bytes) (mode flags : Nat),
       (DatabaseFS.create fs u g parent name mode flags).1 ≠ Outcome.err ENAMETOOLONG)
    ∧ (∀ (cfs : CaptureFS) (u g parent : Nat) (name : Bytes) (mode flags : Nat),
       (CaptureFS.create cfs u g parent name mode flags).1 ≠ Outcome.err ENAMETOOLONG) := by
  refine ⟨?_, ?_, ?_, ?_⟩
  · intro fs parent name h
    simp [DatabaseFS.lookup, h]
  · intro cfs parent name h
    simp [CaptureFS.lookup, h]
  · intro fs u g parent name mode flags
    unfold DatabaseFS.create
    by_cases hp : parent = FUSE_ROOT_ID
    · by_cases hv : utf8Valid name = true
      · cases hl : DatabaseFS.lookup_name fs name with
        | some a => simp [hp, hv, hl, EEXIST, ENAMETOOLONG]
        | none => simp [hp, hv, hl]
      · simp [hp, hv]
    · simp [hp, EBADFD, ENAMETOOLONG]
  · intro cfs u g parent name mode flags
    unfold CaptureFS.create
    by_cases hp : parent = FUSE_ROOT_ID
    · by_cases hn : (getName cfs.names name).isSome = true
      · simp [hp, hn, EEXIST, ENAMETOOLONG]
      · by_cases hfl : 2 < flags % 4
        · simp [hp, hn, hfl, EINVAL, ENAMETOOLONG]
        · simp [hp, hn, hfl]
    · simp [hp, EBADFD, ENAMETOOLONG]

theorem c9_name_length_witness :
    CaptureFS.lookup CaptureFS.new 1 (List.replicate 256 97)
      = (Outcome.err ENAMETOOLONG, CaptureFS.new)
    ∧ (DatabaseFS.create DatabaseFS.new 1000 1000 1 [104] 420 1).1
      ≠ Outcome.err ENAMETOOLONG :=
  ⟨c9_name_length.2.1 CaptureFS.new 1 (List.replicate 256 97) (by decide),
   c9_name_length.2.2.1 DatabaseFS.new 1000 1000 1 [104] 420 1⟩

/-- Arguments of one create call: the request uid and gid, the parent,
the name, the mode and the open flags. -/
structure CreateCall where
  uid : Nat
  gid : Nat
  parent : Nat
  name : Bytes
  mode : Nat
  flags : Nat
  deriving Repr, DecidableEq

/-- Inode identifiers handed out by a sequence of create calls against
the relational engine, successful calls only, in call order. -/
def dbCreateInos : DatabaseFS → List CreateCall → List Nat
  | _, [] => []
  | fs, c :: cs =>
    match DatabaseFS.create fs c.uid c.gid c.parent c.name c.mode c.flags with
    | (Outcome.ok a, fs2) => a.ino :: dbCreateInos fs2 cs
    | (_, fs2) => dbCreateInos fs2 cs

/-- Inode identifiers handed out by a sequence of create calls against
the in-memory engine, successful calls only, in call order. -/
def memCreateInos : CaptureFS → List CreateCall → List Nat
  | _, [] => []
  | cfs, c :: cs =>
    match CaptureFS.create cfs c.uid c.gid c.parent c.name c.mode c.flags with
    | (Outcome.ok a, cfs2) => a.ino :: memCreateInos cfs2 cs
    | (_, cfs2) => memCreateInos cfs2 cs

lemma dbCreate_ok_spec (fs : DatabaseFS) (u g p : Nat) (n : Bytes) (m f : Nat)
    (a : FileAttr) (fs2 : DatabaseFS)
    (h : DatabaseFS.create fs u g p n m f = (Outcome.ok a, fs2)) :
    a.ino = fs.nextIno ∧ fs2.nextIno = fs.nextIno + 1 := by
  unfold DatabaseFS.create at h
  by_cases hp : p = FUSE_ROOT_ID
  · by_cases hv : utf8Valid n = true
    · cases hl : DatabaseFS.lookup_name fs n with
      | some x => simp [hp, hv, hl] at h
      | none =>
        simp [hp, hv, hl, DatabaseFS.allocate_inode] at h
        obtain ⟨ha, hfs2⟩ := h
        subst ha
        subst hfs2
        exact ⟨rfl, rfl⟩
    · simp [hp, hv] at h
  · simp [hp] at h

lemma dbCreate_fail_spec (fs : DatabaseFS) (u g p : Nat) (n : Bytes) (m f : Nat)
    (o : Outcome FileAttr) (fs2 : DatabaseFS)
    (h : DatabaseFS.create fs u g p n m f = (o, fs2)) (ho : ∀ a, o ≠ Outcome.ok a) :
    fs2 = fs := by
  unfold DatabaseFS.create at h
  by_cases hp : p = FUSE_ROOT_ID
  · by_cases hv : utf8Valid n = true
    · cases hl : DatabaseFS.lookup_name fs n with
      | some x =>
        simp [hp, hv, hl] at h
        exact h.2.symm
      | none =>
        simp [hp, hv, hl, DatabaseFS.allocate_inode] at h
        exact absurd h.1.symm (ho _)
    · simp [hp, hv] at h
      exact h.2.symm
  · simp [hp] at h
    exact h.2.symm

lemma dbCreateInos_cons_ok (fs : DatabaseFS) (c : CreateCall) (cs : List CreateCall)
    (a : FileAttr) (fs2 : DatabaseFS)
    (hc : DatabaseFS.create fs c.uid c.gid c.parent c.name c.mode c.flags
        = (Outcome.ok a, fs2)) :
    dbCreateInos fs (c :: cs) = a.ino :: dbCreateInos fs2 cs := by
  simp [dbCreateInos, hc]

lemma dbCreateInos_cons_fail (fs : DatabaseFS) (c : CreateCall) (cs : List CreateCall)
    (o : Outcome FileAttr) (fs2 : DatabaseFS)
    (hc : DatabaseFS.create fs c.uid c.gid c.parent c.name c.mode c.flags = (o, fs2))
    (ho : ∀ a, o ≠ Outcome.ok a) :
    dbCreateInos fs (c :: cs) = dbCreateInos fs cs := by
  have hfs2 := dbCreate_fail_spec fs c.uid c.gid c.parent c.name c.mode c.flags o fs2 hc ho
  subst hfs2
  cases o with
  | ok a => exact absurd rfl (ho a)
  | err e => simp [dbCreateInos, hc]
  | panicked => simp [dbCreateInos, hc]
  | noreply => simp [dbCreateInos, hc]

lemma dbCreateInos_lb : ∀ (cs : List CreateCall) (fs : DatabaseFS) (i : Nat),
    i ∈ dbCreateInos fs cs → fs.nextIno ≤ i
  | [], fs, i => by simp [dbCreateInos]
  | c :: cs, fs, i => by
    rcases hc : DatabaseFS.create fs c.uid c.gid c.parent c.name c.mode c.flags with ⟨o, fs2⟩
    cases o with
    | ok a =>
      rw [dbCreateInos_cons_ok fs c cs a fs2 hc]
      intro hmem
      obtain ⟨hai, hni⟩ := dbCreate_ok_spec fs c.uid c.gid c.parent c.name c.mode c.flags a fs2 hc
      rcases List.mem_cons.mp hmem with h1 | h2
      · omega
      · have := dbCreateInos_lb cs fs2 i h2
        omega
    | err e =>
      rw [dbCreateInos_cons_fail fs c cs _ fs2 hc (fun a h => by cases h)]
      exact dbCreateInos_lb cs fs i
    | panicked =>
      rw [dbCreateInos_cons_fail fs c cs _ fs2 hc (fun a h => by cases h)]
      exact dbCreateInos_lb cs fs i
    | noreply =>
      rw [dbCreateInos_cons_fail fs c cs _ fs2 hc (fun a h => by cases h)]
      exact dbCreateInos_lb cs fs i

lemma dbCreateInos_chain : ∀ (cs : List CreateCall) (fs : DatabaseFS),
    List.Chain' (· < ·) (dbCreateInos fs cs)
  | [], fs => by simp [dbCreateInos]
  | c :: cs, fs => by
    rcases hc : DatabaseFS.create fs c.uid c.gid c.parent c.name c.mode c.flags with ⟨o, fs2⟩
    cases o with
    | ok a =>
      rw [dbCreateInos_cons_ok fs c cs a fs2 hc]
      obtain ⟨hai, hni⟩ := dbCreate_ok_spec fs c.uid c.gid c.parent c.name c.mode c.flags a fs2 hc
      refine List.chain'_cons'.mpr ⟨?_, dbCreateInos_chain cs fs2⟩
      intro y hy
      have hmem : y ∈ dbCreateInos fs2 cs := List.mem_of_mem_head? hy
      have := dbCreateInos_lb cs fs2 y hmem
      omega
    | err e =>
      rw [dbCreateInos_cons_fail fs c cs _ fs2 hc (fun a h => by cases h)]
      exact dbCreateInos_chain cs fs
    | panicked =>
      rw [dbCreateInos_cons_fail fs c cs _ fs2 hc (fun a h => by cases h)]
      exact dbCreateInos_chain cs fs
    | noreply =>
      rw [dbCreateInos_cons_fail fs c cs _ fs2 hc (fun a h => by cases h)]
      exact dbCreateInos_chain cs fs

lemma memCreate_ok_spec (cfs : CaptureFS) (u g p : Nat) (n : Bytes) (m f : Nat)
    (a : FileAttr) (cfs2 : CaptureFS)
    (h : CaptureFS.create cfs u g p n m f = (Outcome.ok a, cfs2)) :
    a.ino = cfs.last_inode + 1 ∧ cfs2.last_inode = cfs.last_inode + 1 := by
  unfold CaptureFS.create at h
  by_cases hp : p = FUSE_ROOT_ID
  · by_cases hn : (getName cfs.names n).isSome = true
    · simp [hp, hn] at h
    · by_cases hfl : 2 < f % 4
      · simp [hp, hn, hfl] at h
      · simp [hp, hn, hfl] at h
        obtain ⟨ha, hcfs2⟩ := h
        subst ha
        subst hcfs2
        exact ⟨rfl, rfl⟩
  · simp [hp] at h

lemma memCreate_fail_spec (cfs : CaptureFS) (u g p : Nat) (n : Bytes) (m f : Nat)
    (o : Outcome FileAttr) (cfs2 : CaptureFS)
    (h : CaptureFS.create cfs u g p n m f = (o, cfs2)) (ho : ∀ a, o ≠ Outcome.ok a) :
    cfs2 = cfs := by
  unfold CaptureFS.create at h
  by_cases hp : p = FUSE_ROOT_ID
  · by_cases hn : (getName cfs.names n).isSome = true
    · simp [hp, hn] at h
      exact h.2.symm
    · by_cases hfl : 2 < f % 4
      · simp [hp, hn, hfl] at h
        exact h.2.symm
      · simp [hp, hn, hfl] at h
        exact absurd h.1.symm (ho _)
  · simp [hp] at h
    exact h.2.symm

lemma memCreateInos_cons_ok (cfs : CaptureFS) (c : CreateCall) (cs : List CreateCall)
    (a : FileAttr) (cfs2 : CaptureFS)
    (hc : CaptureFS.create cfs c.uid c.gid c.parent c.name c.mode c.flags
        = (Outcome.ok a, cfs2)) :
    memCreateInos cfs (c :: cs) = a.ino :: memCreateInos cfs2 cs := by
  simp [memCreateInos, hc]

lemma memCreateInos_cons_fail (cfs : CaptureFS) (c : CreateCall) (cs : List CreateCall)
    (o : Outcome FileAttr) (cfs2 : CaptureFS)
    (hc : CaptureFS.create cfs c.uid c.gid c.parent c.name c.mode c.flags = (o, cfs2))
    (ho : ∀ a, o ≠ Outcome.ok a) :
    memCreateInos cfs (c :: cs) = memCreateInos cfs cs := by
  have hcfs2 := memCreate_fail_spec cfs c.uid c.gid c.parent c.name c.mode c.flags o cfs2 hc ho
  subst hcfs2
  cases o with
  | ok a => exact absurd rfl (ho a)
  | err e => simp [memCreateInos, hc]
  | panicked => simp [memCreateInos, hc]
  | noreply => simp [memCreateInos, hc]

lemma memCreateInos_lb : ∀ (cs : List CreateCall) (cfs : CaptureFS) (i : Nat),
    i ∈ memCreateInos cfs cs → cfs.last_inode < i
  | [], cfs, i => by simp [memCreateInos]
  | c :: cs, cfs, i => by
    rcases hc : CaptureFS.create cfs c.uid c.gid c.parent c.name c.mode c.flags with ⟨o, cfs2⟩
    cases o with
    | ok a =>
      rw [memCreateInos_cons_ok cfs c cs a cfs2 hc]
      intro hmem
      obtain ⟨hai, hni⟩ :=
        memCreate_ok_spec cfs c.uid c.gid c.parent c.name c.mode c.flags a cfs2 hc
      rcases List.mem_cons.mp hmem with h1 | h2
      · omega
      · have := memCreateInos_lb cs cfs2 i h2
        omega
    | err e =>
      rw [memCreateInos_cons_fail cfs c cs _ cfs2 hc (fun a h => by cases h)]
      exact memCreateInos_lb cs cfs i
    | panicked =>
      rw [memCreateInos_cons_fail cfs c cs _ cfs2 hc (fun a h => by cases h)]
      exact memCreateInos_lb cs cfs i
    | noreply =>
      rw [memCreateInos_cons_fail cfs c cs _ cfs2 hc (fun a h => by cases h)]
      exact memCreateInos_lb cs cfs i

lemma memCreateInos_chain : ∀ (cs : List CreateCall) (cfs : CaptureFS),
    List.Chain' (· < ·) (memCreateInos cfs cs)
  | [], cfs => by simp [memCreateInos]
  | c :: cs, cfs => by
    rcases hc : CaptureFS.create cfs c.uid c.gid c.parent c.name c.mode c.flags with ⟨o, cfs2⟩
    cases o with
    | ok a =>
      rw [memCreateInos_cons_ok cfs c cs a cfs2 hc]
      obtain ⟨hai, hni⟩ :=
        memCreate_ok_spec cfs c.uid c.gid c.parent c.name c.mode c.flags a cfs2 hc
      refine List.chain'_cons'.mpr ⟨?_, memCreateInos_chain cs cfs2⟩
      intro y hy
      have hmem : y ∈ memCreateInos cfs2 cs := List.mem_of_mem_head? hy
      have := memCreateInos_lb cs cfs2 y hmem
      omega
    | err e =>
      rw [memCreateInos_cons_fail cfs c cs _ cfs2 hc (fun a h => by cases h)]
      exact memCreateInos_chain cs cfs
    | panicked =>
      rw [memCreateInos_cons_fail cfs c cs _ cfs2 hc (fun a h => by cases h)]
      exact memCreateInos_chain cs cfs
    | noreply =>
      rw [memCreateInos_cons_fail cfs c cs _ cfs2 hc (fun a h => by cases h)]
      exact memCreateInos_chain cs cfs

/-- C8: over any sequence of create calls from a fresh store, the inode
identifiers handed out by the successful calls are strictly increasing
(hence never reused) and none equals the root identifier, in both
engines: the relational serial starts at 10 and the in-memory counter
starts right above the root. -/
theorem c8_inode_identifiers (cs : List CreateCall) :
    List.Chain' (· < ·) (dbCreateInos DatabaseFS.new cs)
    ∧ (∀ i ∈ dbCreateInos DatabaseFS.new cs, i ≠ FUSE_ROOT_ID)
    ∧ List.Chain' (· < ·) (memCreateInos CaptureFS.new cs)
    ∧ (∀ i ∈ memCreateInos CaptureFS.new cs, i ≠ FUSE_ROOT_ID) := by
  refine ⟨dbCreateInos_chain cs DatabaseFS.new, ?_,
    memCreateInos_chain cs CaptureFS.new, ?_⟩
  · intro i hi
    have := dbCreateInos_lb cs DatabaseFS.new i hi
    simp [DatabaseFS.new] at this
    simp [FUSE_ROOT_ID]
    omega
  · intro i hi
    have := memCreateInos_lb cs CaptureFS.new i hi
    simp [CaptureFS.new, FUSE_ROOT_ID] at this ⊢
    omega

/-- The create sequence instantiating the C8 statement: two distinct
files created at the root. -/
def csW : List CreateCall :=
  [{ uid := 1000, gid := 1000, parent := 1, name := [97], mode := 420, flags := 1 },
   { uid := 1000, gid := 1000, parent := 1, name := [98], mode := 420, flags := 1 }]

theorem c8_inode_identifiers_witness :
    List.Chain' (· < ·) (dbCreateInos DatabaseFS.new csW)
    ∧ (10 : Nat) ≠ FUSE_ROOT_ID
    ∧ List.Chain' (· < ·) (memCreateInos CaptureFS.new csW)
    ∧ (2 : Nat) ≠ FUSE_ROOT_ID :=
  ⟨(c8_inode_identifiers csW).1,
   (c8_inode_identifiers csW).2.1 10 (by decide),
   (c8_inode_identifiers csW).2.2.1,
   (c8_inode_identifiers csW).2.2.2 2 (by decide)⟩
